import Mathlib

/-!
# Verification of the Cosmic-On-Air processing core

Shallow embedding of the core algorithmic functions of
`src/scripts/cosmic_on_air.py` (TimestampRepair / `fix_times`,
WindowEstimator / `estimate_takeoff`, ReferenceAligner / `align_time`,
the longitude unwrap/rewrap pair, the calibration factor, and the
processed-log writer/reader pair), together with theorems settling the
specification claims about them.

Modelling conventions:
* timestamps are whole seconds, embedded as `Int` (the repository's
  datetimes are parsed at second resolution);
* numpy float64 arithmetic is embedded as exact arithmetic in `ℚ`
  (every quantity appearing in the claims is a small integer, a median
  of integers, or a ratio of such, all exactly representable);
* the numpy cast of a float into an `int64` array slot truncates toward
  zero, embedded by `truncQ`;
* Python exceptions are embedded by `Except`: the deliberate
  `raise Exception("Unable to repair ...")` of `fix_times` is
  `.unrecoverable`, an out-of-range list/array subscript is
  `.indexError`, reading the loop variable `dt` before any assignment is
  `.nameError`, and a `while` loop that never exits is modelled with a
  fuel parameter whose exhaustion yields `.fuelOut`.
-/

namespace COA

-- Batteries marks the arithmetic of `Rat` `@[irreducible]`; re-allow
-- unfolding so that concrete runs of the embedded functions can be
-- settled by `decide` (the kernel ignores reducibility either way).
attribute [local semireducible] Rat.add Rat.mul Rat.inv Rat.sub

/-- Decidable equality of `Except` results, for settling concrete runs
by `decide`. -/
instance exceptDecEq {ε α : Type} [DecidableEq ε] [DecidableEq α] :
    DecidableEq (Except ε α) := fun x y =>
  match x, y with
  | .ok a, .ok b =>
    if h : a = b then isTrue (by rw [h])
    else isFalse (fun hc => h (Except.ok.inj hc))
  | .error a, .error b =>
    if h : a = b then isTrue (by rw [h])
    else isFalse (fun hc => h (Except.error.inj hc))
  | .ok _, .error _ => isFalse (fun hc => Except.noConfusion hc)
  | .error _, .ok _ => isFalse (fun hc => Except.noConfusion hc)

/-- Truncation toward zero of a rational, as in a numpy float64 value being
stored into an `int64` array slot (C-style cast). -/
def truncQ (q : ℚ) : Int := if 0 ≤ q then ⌊q⌋ else -⌊-q⌋

/-- Strict increase of an integer sequence, as a decidable check. -/
def strictIncrB (l : List Int) : Bool :=
  (List.zipWith (fun a b => decide (a < b)) l l.tail).all id

/-- Round a rational to the nearest integer, ties to even: the rounding used
by Python when formatting a float with a fixed number of digits. -/
def rndHalfEven (x : ℚ) : Int :=
  let f := ⌊x⌋
  let r := x - f
  if r < 1/2 then f
  else if 1/2 < r then f + 1
  else if 2 ∣ f then f else f + 1

/-- Insert into a sorted list of integers. -/
def sortedInsert (x : Int) : List Int → List Int
  | [] => [x]
  | y :: ys => if x ≤ y then x :: y :: ys else y :: sortedInsert x ys

/-- Insertion sort of a list of integers. -/
def insertionSort : List Int → List Int
  | [] => []
  | x :: xs => sortedInsert x (insertionSort xs)

/-- Median (`np.median`) of a list of integers: middle element of the sorted list,
or the average of the two middle elements when the length is even (the
result is a float, embedded as `ℚ`). -/
def medianInt (l : List Int) : ℚ :=
  let s := insertionSort l
  let n := s.length
  if n % 2 = 1 then ((s.getD (n / 2) 0 : Int) : ℚ)
  else (((s.getD (n / 2 - 1) 0 + s.getD (n / 2) 0 : Int) : ℚ)) / 2

/-- Consecutive deltas `dt[i] = T[i+1] - T[i]` of a timestamp sequence, as
computed at the top of `fix_times` (`times` is the sequence of offsets from
the first timestamp, `dt` its consecutive differences). -/
def deltasOf (dataTime : List Int) : List Int :=
  match dataTime with
  | [] => []
  | t0 :: _ =>
    let times := dataTime.map (fun t => t - t0)
    List.zipWith (fun a b => a - b) times.tail times

/-- Validity `0 < dt <= max_dt`: the test applied to the original integer
deltas (`valid_dt` in `fix_times`). -/
def validDelta (maxDt : Int) (d : Int) : Bool :=
  decide (0 < d) && decide (d ≤ maxDt)

/-- The inner helper `valid` of `fix_times`, applied to a possibly
fractional corrected delta. -/
def validQ (maxDt : Int) (x : ℚ) : Bool :=
  decide (0 < x) && decide (x ≤ (maxDt : ℚ))

/-- Which entries of the boolean array of `fix_times`'s subset search are
set after `j` calls of `increment_binary`, starting from the array with
only entry `0` set.  `increment_binary` carries from entry `0` into entry
`n-1`, then `n-2`, and so on, so the array holds the binary counter value
`m = j + 1` with entry `0` as bit `0` and entry `k` (for `k ≥ 1`) as bit
`n - k`. -/
def selBit (n m k : Nat) : Bool :=
  if k = 0 then m.testBit 0 else m.testBit (n - k)

/-- Value of `sum(arr)` for the boolean array in state `m`: the number of selected
error terms. -/
def selCount (n m : Nat) : Nat :=
  ((List.range n).filter (fun k => selBit n m k)).length

/-- The accumulated `error` for selection `m`: sum of the selected entries
of the error list, in index order. -/
def errSum (errors : List ℚ) (m : Nat) : ℚ :=
  ((List.range errors.length).filter (fun k => selBit errors.length m k)).foldl
    (fun a k => a + errors.getD k 0) 0

/-- Deleting the selected entries from the error list (the downward `del`
loop of `fix_times`). -/
def removeSel (errors : List ℚ) (m : Nat) : List ℚ :=
  (errors.enum.filterMap (fun p => if selBit errors.length m p.1 then none else some p.2))

/-- The subset search of `fix_times`: try the non-empty subsets of the
error list in `increment_binary` order (`j = 0 .. 2^n - 2`, i.e.
`m = 1 .. 2^n - 1`), skipping subsets of more than 10 terms, and return
the first whose summed error makes the anomalous delta valid. -/
def findCombo (maxDt : Int) (dtI : Int) (errors : List ℚ) : Option Nat :=
  (List.range (2 ^ errors.length - 1)).findSome? (fun j =>
    let m := j + 1
    if decide (selCount errors.length m ≤ 10) &&
        validQ maxDt ((dtI : ℚ) + errSum errors m) then some m else none)

/-- Errors raised by `fix_times`. -/
inductive FixErr
  /-- the deliberate `raise Exception("Unable to repair without specific dt ...")`. -/
  | unrecoverable
  /-- an `errors[-1]` subscript on an empty Python list. -/
  | indexError
deriving DecidableEq, Repr

/-- State of the single walk over the delta sequence in `fix_times`:
the (mutated) `dt` array and the accumulated `errors` list. -/
structure FixState where
  dt : Array Int
  errors : List ℚ
deriving Repr

/-- One iteration of the repair walk of `fix_times` at index `i`.
`validList` is the validity of the ORIGINAL deltas (`valid_dt` is computed
before the loop and never updated); the entry `dt[i]` is still original
when iteration `i` reads it, since iteration `i` only writes index `i`. -/
def fixStep (maxDt : Int) (delta : ℚ) (validList : List Bool) (i : Nat)
    (st : FixState) : Except FixErr FixState :=
  let d0 := st.dt.getD i 0
  if d0 = 0 then
    -- duplicate timestamp: dt[i] = delta, fold -delta into the errors,
    -- merging with the previous error when the previous delta was invalid
    let dt1 := st.dt.set! i (truncQ delta)
    if decide (1 < i) && !(validList.getD (i - 1) true) then
      match st.errors with
      | [] => .error .indexError  -- errors[-1] on an empty list
      | _ => .ok { dt := dt1,
                   errors := st.errors.dropLast ++ [st.errors.getLast! - delta] }
    else .ok { dt := dt1, errors := st.errors ++ [-delta] }
  else if !(validList.getD i true) then
    match findCombo maxDt d0 st.errors with
    | some m =>
      .ok { dt := st.dt.set! i (truncQ ((d0 : ℚ) + errSum st.errors m)),
            errors := removeSel st.errors m }
    | none =>
      .ok { dt := st.dt.set! i (truncQ delta), errors := st.errors ++ [(d0 : ℚ) - delta] }
  else .ok st

/-- Cumulative sums of a list starting from `a` (each output entry is the
running total including the current element). -/
def cumsumFrom (a : Int) : List Int → List Int
  | [] => []
  | d :: ds => (a + d) :: cumsumFrom (a + d) ds

/-- Function `fix_times` of `cosmic_on_air.py`: repair a corrupted timestamp
sequence.  `dataTime` is the sequence of absolute timestamps in whole
seconds; `delta` is the expected spacing (not supplied when `≤ 0`);
`maxDt` is the corruption threshold (source default 1800 s).
(`data_time[0]` is only read on the repair path, where the sequence has
at least two elements, so the `headD` default is never consulted.) -/
def fixTimes (dataTime : List Int) (delta : ℚ) (maxDt : Int) :
    Except FixErr (List Int) :=
  let t0 := dataTime.headD 0
  let dt := deltasOf dataTime
  let validList := dt.map (validDelta maxDt)
  if validList.all id then .ok dataTime  -- no-op fast path
  else
    let deltaE : Except FixErr ℚ :=
      if delta ≤ 0 then
        if validList.any id then
          .ok (medianInt ((dt.zip validList).filterMap
            (fun p => if p.2 then some p.1 else none)))
        else .error .unrecoverable
        else .ok delta
    match deltaE with
    | .error e => .error e
    | .ok dlt =>
      match (List.range dt.length).foldlM
          (fun st i => fixStep maxDt dlt validList i st)
          { dt := dt.toArray, errors := [] } with
      | .error e => .error e
      | .ok st =>
        .ok ((0 :: cumsumFrom 0 st.dt.toList).map (fun t => t0 + t))

/-! ## Longitude unwrap / rewrap (`unravel_lon`, `ravel_lon`) -/

/-- The first inner loop of `unravel_lon` at index `i`:
`while x - prev > 180: x -= 360`, embedded by its exit value — it runs
`⌈((x - prev) - 180)/360⌉` times when its guard holds at entry (landing
in `(-180, 180]`), otherwise zero times (the `toNat` clamp). -/
def unravelSub (prev x : ℚ) : ℚ :=
  x - 360 * (((⌈((x - prev) - 180) / 360⌉).toNat : ℤ) : ℚ)

/-- One step of `unravel_lon`'s correction: the first loop, then
`while x - prev < -180: x += 360`, embedded the same way. -/
def unravelStep (prev x : ℚ) : ℚ :=
  unravelSub prev x
    + 360 * (((⌈(-180 - (unravelSub prev x - prev)) / 360⌉).toNat : ℤ) : ℚ)

/-- The walk of `unravel_lon` from index 1 on: each element is adjusted
against the previous adjusted element. -/
def unravelGo (prev : ℚ) : List ℚ → List ℚ
  | [] => []
  | y :: ys =>
    let y1 := unravelStep prev y
    y1 :: unravelGo y1 ys

/-- Function `unravel_lon`: make a longitude sequence continuous in angle space by
cumulative ±360 corrections whenever a step exceeds ±180. -/
def unravelLon : List ℚ → List ℚ
  | [] => []
  | x :: xs => x :: unravelGo x xs

/-- Effect of `ravel_lon` on one element: `(lon + 180) % 360 - 180`, with
numpy's floored modulo. -/
def ravelPoint (x : ℚ) : ℚ :=
  ((x + 180) - 360 * (⌊(x + 180) / 360⌋ : ℚ)) - 180

/-- Function `ravel_lon`: force longitudes back into a single turn via modulo. -/
def ravelLon (lon : List ℚ) : List ℚ := lon.map ravelPoint

/-! ## WindowEstimator (`estimate_takeoff`) -/

/-- Clip a count delta to `±max_diff` (the two `np.where` lines). -/
def clipInt (maxDiff d : Int) : Int :=
  if d > maxDiff then maxDiff else if d < -maxDiff then -maxDiff else d

/-- The element-by-element rebuild of the clipped cumulative count curve:
`cnt[i] = cnt[i-1] + clipped_delta[i]`, floored at 0.  `prevRaw` is the
previous original count (deltas are differences of the original data),
`prevReb` the previous rebuilt value. -/
def rebuildGo (maxDiff : Int) (prevRaw prevReb : Int) : List Int → List Int
  | [] => []
  | c :: cs =>
    let d := clipInt maxDiff (c - prevRaw)
    let v := if prevReb + d < 0 then 0 else prevReb + d
    v :: rebuildGo maxDiff c v cs

/-- The clipped, non-negative count curve of `estimate_takeoff`
(`cnt_5sc` after the spike-suppression loop; the first element is copied
unchanged). -/
def rebuildCnt (maxDiff : Int) : List Int → List Int
  | [] => []
  | c0 :: rest => c0 :: rebuildGo maxDiff c0 c0 rest

/-- Errors of the window-search loops.  `fuelOut` marks a `while` loop
that has not exited within the given fuel (used to exhibit
non-termination), `indexError` an out-of-range subscript, `nameError`
reading the loop variable `dt` before its first assignment. -/
inductive RunErr
  | fuelOut
  | indexError
  | nameError
deriving DecidableEq, Repr

/-- State of `estimate_takeoff`'s sliding-window loop.  `dt` is the
Python variable `dt`, which leaks out of the inner `for` loop and keeps
its stale value when that loop body never runs (`none` = not yet
assigned anywhere). -/
structure EstState where
  wStart : Nat
  wStop : Nat
  dt : Option Int
  maxSum : Int
  tIdx : Nat
  lIdx : Nat
deriving DecidableEq, Repr

/-- The inner `for i in range(window_stop+1, size)` loop of
`estimate_takeoff` over the remaining indices: `dt = time[i] -
time[window_start]`; while `dt < flight_duration` advance `window_stop`
to `i`, otherwise break.  Returns the new `window_stop` and the last
value of `dt` (stale input values when the range is empty). -/
def estInner (time : List Int) (duration : Int) (wStart : Nat) :
    List Nat → Nat → Option Int → Except RunErr (Nat × Option Int)
  | [], stop, dt => .ok (stop, dt)
  | i :: rest, stop, dt =>
    match time[i]?, time[wStart]? with
    | some ti, some ts =>
      let d := ti - ts
      if d < duration then estInner time duration wStart rest i (some d)
      else .ok (stop, some d)
    | _, _ =>
      -- numpy raises IndexError on an out-of-range subscript
      .error .indexError

/-- The `while window_stop != size - 1` loop of `estimate_takeoff`,
with explicit fuel. -/
def estLoop (time : List Int) (cumsum : List Int) (size : Nat) (duration : Int) :
    EstState → Nat → Except RunErr (Nat × Nat)
  | _, 0 => .error .fuelOut
  | st, fuel + 1 =>
    if (st.wStop : Int) = (size : Int) - 1 then .ok (st.tIdx, st.lIdx)
    else
      match estInner time duration st.wStart
          (List.range' (st.wStop + 1) (size - (st.wStop + 1))) st.wStop st.dt with
      | .error e => .error e
      | .ok (stop1, dtOpt) =>
        match dtOpt with
        | none => .error .nameError  -- dt referenced before assignment
        | some d =>
          if d ≤ 0 then
            -- corrupted-timestamp edge case: advance the window start
            estLoop time cumsum size duration
              { st with wStart := st.wStart + 1, wStop := st.wStart + 2, dt := some d } fuel
          else
            match cumsum[stop1]?, cumsum[st.wStart]? with
            | some cs, some cb =>
              let thisSum := cs - cb
              if thisSum ≥ st.maxSum then
                estLoop time cumsum size duration
                  { wStart := st.wStart + 1, wStop := stop1, dt := some d,
                    maxSum := thisSum, tIdx := st.wStart, lIdx := stop1 } fuel
              else
                estLoop time cumsum size duration
                  { st with wStart := st.wStart + 1, wStop := stop1, dt := some d } fuel
            | _, _ => .error .indexError

/-- Function `estimate_takeoff` of `cosmic_on_air.py`: locate the takeoff/landing
index window by the maximum clipped cumulative count sum over windows
whose timestamp span is under `duration` (seconds).  Source defaults:
`max_diff = 100`. -/
def estimateTakeoff (time : List Int) (cnt5sc : List Int) (duration : Int)
    (maxDiff : Int) (fuel : Nat) : Except RunErr (Nat × Nat) :=
  let size := cnt5sc.length
  let cumsum := cumsumFrom 0 (rebuildCnt maxDiff cnt5sc)
  estLoop time cumsum size duration
    { wStart := 0, wStop := 0, dt := none, maxSum := 0, tIdx := 0, lIdx := size - 1 } fuel

/-! ## ReferenceAligner (`align_time`) -/

/-- Interpolation (`np.interp`) at a single point: piecewise-linear interpolation over
the (increasing) nodes `xp` with values `fp`, clamped to the first/last
value outside the node range. -/
def interpPoint (xp fp : List ℚ) (x : ℚ) : ℚ :=
  match xp, fp with
  | [], _ => 0          -- np.interp raises on empty xp; never reached here
  | [_], f0 :: _ => f0
  | x0 :: x1 :: xr, f0 :: f1 :: fr =>
    if x ≤ x0 then f0
    else if x ≤ x1 then f0 + (f1 - f0) * (x - x0) / (x1 - x0)
    else interpPoint (x1 :: xr) (f1 :: fr) x
  | _ :: _, _ => 0

/-- State of `align_time`'s sliding-window loop. -/
structure AlignState where
  wStart : Nat
  wEnd : Nat
  maxR2 : ℚ
  tIdx : Nat
  lIdx : Nat
deriving DecidableEq, Repr

/-- The inner `for i in range(window_end+1, size)` loop of `align_time`:
break with `window_end = i - 1` at the first `i` whose span exceeds the
flight duration; `none` when the loop runs out (the `for`-`else` then
sets `window_end = size - 1`). -/
def alignInner (time : List Int) (duration : Int) (wStart : Nat) :
    List Nat → Except RunErr (Option Nat)
  | [] => .ok none
  | i :: rest =>
    match time[i]?, time[wStart]? with
    | some ti, some ts =>
      if ti - ts > duration then .ok (some (i - 1))
      else alignInner time duration wStart rest
    | _, _ => .error .indexError

/-- Zero-intercept regression slope `β = Σ(m·r) / Σ(r²)` fitting
`measurement ≈ β · reference` (the `beta_hat` line of `align_time`). -/
def betaHat (m r : List ℚ) : ℚ :=
  (List.zipWith (fun a b => a * b) m r).sum / (r.map (fun a => a * a)).sum

/-- Sum of squares `np.sum(x**2)`. -/
def sumSq (r : List ℚ) : ℚ := (r.map (fun a => a * a)).sum

/-- The measurement and interpolated-reference vectors of one candidate
window of `align_time`: counts `cnt_1mn[start:end+1]`, and the reference
curve interpolated at the window-relative sample times. -/
def alignWindow (cnt : List ℚ) (tfs : List Int) (refT refV : List ℚ)
    (wStart eN : Nat) : List ℚ × List ℚ :=
  let len := eN + 1 - wStart
  ((cnt.drop wStart).take len,
   (((tfs.drop wStart).take len).map
      (fun t => ((t - tfs.getD wStart 0 : Int) : ℚ))).map (interpPoint refT refV))

/-- The residual sum of squares `ESS` of the zero-intercept fit. -/
def essOf (m r : List ℚ) : ℚ :=
  sumSq (List.zipWith (fun a b => a - betaHat m r * b) m r)

/-- The total sum of squares `TSS` about the mean of the measurement. -/
def tssOf (m : List ℚ) : ℚ :=
  (m.map (fun a => (a - m.sum / (m.length : ℚ)) * (a - m.sum / (m.length : ℚ)))).sum

/-- The coefficient of determination `R2 = 1 - ESS/TSS` of the window. -/
def r2Of (m r : List ℚ) : ℚ := 1 - essOf m r / tssOf m

/-- One iteration body of `align_time` after `window_end` has been
resolved to the in-range index `eN`: the implausible-window skip, the
regression filters (`nan` slope on an all-zero reference window,
negative slope, constant measurement), and the strict best-fit update
`R2 > max_R2`.  Returns the next loop state together with the candidate
window (and its R²) when the iteration reached the comparison. -/
def alignStep (time : List Int) (cnt : List ℚ) (tfs : List Int)
    (refT refV : List ℚ) (duration : Int) (st : AlignState) (eN : Nat) :
    Except RunErr (AlignState × Option ((Nat × Nat) × ℚ)) :=
  match time[eN]?, time[st.wStart]? with
  | some te, some ts =>
    if (((te - ts : Int) : ℚ) < (1 / 2) * (duration : ℚ)) ∨
        ((eN : Int) - (st.wStart : Int) < 5) then
      -- implausible flight window: advance the window start
      .ok ({ st with wStart := st.wStart + 1, wEnd := st.wStart + 2 }, none)
    else
      let mr := alignWindow cnt tfs refT refV st.wStart eN
      -- window_start += 1 happens BEFORE the regression block
      let s1 := st.wStart + 1
      if sumSq mr.2 = 0 then
        -- beta_hat = nan in numpy float arithmetic; every subsequent
        -- comparison against nan is False, so no update happens
        .ok ({ st with wStart := s1, wEnd := eN }, none)
      else if betaHat mr.1 mr.2 < 0 then
        .ok ({ st with wStart := s1, wEnd := eN }, none)
      else if tssOf mr.1 = 0 then
        .ok ({ st with wStart := s1, wEnd := eN }, none)
      else if r2Of mr.1 mr.2 > st.maxR2 then
        .ok ({ wStart := s1, wEnd := eN, maxR2 := r2Of mr.1 mr.2, tIdx := s1, lIdx := eN },
          some ((s1, eN), r2Of mr.1 mr.2))
      else
        .ok ({ st with wStart := s1, wEnd := eN }, some ((s1, eN), r2Of mr.1 mr.2))
  | _, _ => .error .indexError

/-- The `while window_end != size - 1` loop of `align_time`, with
explicit fuel.  `cnt` is `cnt_1mn` (as rationals), `tfs` the
`times_from_start` array, `refT`/`refV` the reference curve nodes and
values. -/
def alignLoop (time : List Int) (cnt : List ℚ) (tfs : List Int)
    (refT refV : List ℚ) (size : Nat) (duration : Int) :
    AlignState → Nat → Except RunErr (Nat × Nat × ℚ)
  | _, 0 => .error .fuelOut
  | st, fuel + 1 =>
    if (st.wEnd : Int) = (size : Int) - 1 then .ok (st.tIdx, st.lIdx, st.maxR2)
    else
      match alignInner time duration st.wStart
          (List.range' (st.wEnd + 1) (size - (st.wEnd + 1))) with
      | .error e => .error e
      | .ok res =>
        -- window_end = i-1 on break, size-1 when the for loop runs out
        let eInt : Int := match res with
          | some x => (x : Int)
          | none => (size : Int) - 1
        if eInt < 0 then .error .indexError  -- t[-1] of an empty array
        else
          match alignStep time cnt tfs refT refV duration st eInt.toNat with
          | .error e => .error e
          | .ok (st1, _) => alignLoop time cnt tfs refT refV size duration st1 fuel

/-- Instrumented variant of `alignLoop` running the identical control
flow (the shared `alignStep`) but returning the list of candidate
windows with their R², in scan order. -/
def alignLoopT (time : List Int) (cnt : List ℚ) (tfs : List Int)
    (refT refV : List ℚ) (size : Nat) (duration : Int) :
    AlignState → Nat → Except RunErr (List ((Nat × Nat) × ℚ))
  | _, 0 => .error .fuelOut
  | st, fuel + 1 =>
    if (st.wEnd : Int) = (size : Int) - 1 then .ok []
    else
      match alignInner time duration st.wStart
          (List.range' (st.wEnd + 1) (size - (st.wEnd + 1))) with
      | .error e => .error e
      | .ok res =>
        let eInt : Int := match res with
          | some x => (x : Int)
          | none => (size : Int) - 1
        if eInt < 0 then .error .indexError
        else
          match alignStep time cnt tfs refT refV duration st eInt.toNat with
          | .error e => .error e
          | .ok (st1, copt) =>
            match alignLoopT time cnt tfs refT refV size duration st1 fuel with
            | .error e => .error e
            | .ok cands => .ok (copt.toList ++ cands)

/-- Function `align_time` of `cosmic_on_air.py`: find the device-data window whose
counts best fit (highest R²) the reference `total-neutron` curve under a
zero-intercept linear regression.  `deviceTime` are the device
timestamps, `takeoff`/`landing` the flight times (seconds), `flightTime`
the flight-track waypoint times, `refTMN` the reference values at those
waypoints. -/
def alignTime (deviceTime : List Int) (cnt1mn : List Int) (takeoff landing : Int)
    (flightTime : List Int) (refTMN : List ℚ) (fuel : Nat) :
    Except RunErr (Nat × Nat × ℚ) :=
  let size := deviceTime.length
  let duration := landing - takeoff
  let refT := flightTime.map (fun t => ((t - takeoff : Int) : ℚ))
  let t0 := deviceTime.headD 0
  let tfs := deviceTime.map (fun t => t - t0)
  alignLoop deviceTime (cnt1mn.map (fun (c : Int) => (c : ℚ))) tfs refT refTMN size duration
    { wStart := 0, wEnd := 0, maxR2 := 0, tIdx := 0, lIdx := size - 1 } fuel

/-- Candidate-window trace of `align_time`. -/
def alignTimeT (deviceTime : List Int) (cnt1mn : List Int) (takeoff landing : Int)
    (flightTime : List Int) (refTMN : List ℚ) (fuel : Nat) :
    Except RunErr (List ((Nat × Nat) × ℚ)) :=
  let size := deviceTime.length
  let duration := landing - takeoff
  let refT := flightTime.map (fun t => ((t - takeoff : Int) : ℚ))
  let t0 := deviceTime.headD 0
  let tfs := deviceTime.map (fun t => t - t0)
  alignLoopT deviceTime (cnt1mn.map (fun (c : Int) => (c : ℚ))) tfs refT refTMN size duration
    { wStart := 0, wEnd := 0, maxR2 := 0, tIdx := 0, lIdx := size - 1 } fuel

/-! ## Calibration / scaling factor (`read_raw_log`, line 234) -/

/-- The persisted calibration factor: `scaling_factor =
Σ(cnt_1mn · total-neutron) / Σ(cnt_1mn²)` over the finalized window. -/
def scalingFactorOf (cnt1mn : List Int) (totalNeutron : List ℚ) : ℚ :=
  (List.zipWith (fun (a : Int) (b : ℚ) => (a : ℚ) * b) cnt1mn totalNeutron).sum /
    (cnt1mn.map (fun (a : Int) => ((a : ℚ)) * ((a : ℚ)))).sum

/-! ## Processed-log serialization (`write_newlog` / `read_processed_log`)

The flat text artifact is embedded at the level of the values it
denotes: each `# key = value` header line becomes a typed field, each
comma-delimited data row a `ProcessedRow`.  Writing a float with a fixed
format becomes rounding the rational to the precision of that format
(`{:.5f}` → `fmtFixed 5`, `{:.0f}` → `fmtFixed 0`, `{:.4e}` →
`fmtExp4`); re-parsing a decimal literal is exact.  Timestamps are
written with `strftime("%Y-%m-%dT%H:%M:%SZ")` and re-parsed with the
same format, which is the identity on whole-second times. -/

/-- The rational denoted by `x` formatted with `p` digits after the
decimal point (Python fixed-point formatting, ties to even). -/
def fmtFixed (p : Nat) (x : ℚ) : ℚ :=
  (rndHalfEven (x * 10 ^ p) : ℚ) / 10 ^ p

/-- Number of decimal digits of `n` (with `0` for `n = 0`), by fueled
repeated division. -/
def digitsGo (fuel n : Nat) : Nat :=
  match fuel with
  | 0 => 0
  | f + 1 => if n = 0 then 0 else digitsGo f (n / 10) + 1

/-- Number of decimal digits of `n`. -/
def digitCount (n : Nat) : Nat := digitsGo (n + 1) n

/-- Smallest `k` (searched upward from the given start) with
`1 ≤ x * 10 ^ k`, by fueled search. -/
def upGo (fuel : Nat) (x : ℚ) (k : Nat) : Nat :=
  match fuel with
  | 0 => k
  | f + 1 => if 1 ≤ x * 10 ^ k then k else upGo f x (k + 1)

/-- The decimal exponent of a positive rational: the largest `e` with
`10 ^ e ≤ x` (junk value 0 for `x ≤ 0`).  For `x ≥ 1` it is one less
than the digit count of `⌊x⌋`; for `0 < x < 1` it is `-k` for the
smallest `k ≥ 1` with `x · 10^k ≥ 1` (the fuel `digitCount x.den + 1`
always suffices since `x ≥ 1/x.den`). -/
def qExp (x : ℚ) : ℤ :=
  if x ≤ 0 then 0
  else if 1 ≤ x then (digitCount (⌊x⌋).toNat : ℤ) - 1
  else -(upGo (digitCount x.den + 1) x 1 : ℤ)

/-- The rational denoted by `x` formatted with `{:.4e}` (scientific
notation with 4 digits after the point, i.e. 5 significant digits,
ties to even). -/
def fmtExp4 (x : ℚ) : ℚ :=
  if x = 0 then 0
  else
    let e : ℤ := qExp |x|
    let sgn : ℚ := if x < 0 then -1 else 1
    sgn * (rndHalfEven (|x| / (10 : ℚ) ^ (e - 4)) : ℚ) * (10 : ℚ) ^ (e - 4)

/-- The merged record assembled by the pipeline (the `data` dictionary
handed to `write_newlog`).  `cari` holds the reference columns
`(cari_total, total-neutron)` when reference data is present.
`timeOffset` and `r2` are held as strings in the dictionary and written
verbatim, as in the source. -/
structure MergedRecord where
  deviceId : String
  citizenId : String
  originICAO : String
  destICAO : String
  flightNumber : String
  timeOffset : String
  r2 : String
  timestampsNote : String
  takeoff : Int
  landing : Int
  scalingFactor : ℚ
  time : List Int
  cnt1mn : List Int
  cnt5sc : List Int
  lat : List ℚ
  lon : List ℚ
  alt : List ℚ
  cari : Option (List ℚ × List ℚ)
deriving DecidableEq, Repr

/-- One comma-delimited data row of the processed log, as values:
`timestamp, cnt_1min, cnt_5s, latitude, longitude, altitude`
and, when reference data is present,
`simulation_total, simulation_neutron`. -/
structure ProcessedRow where
  ts : Int
  c1 : Int
  c5 : Int
  lat : ℚ
  lon : ℚ
  alt : ℚ
  sim : Option (ℚ × ℚ)
deriving DecidableEq, Repr

/-- The processed log file, as the values its header lines and data rows
denote.  `scalingField = none` embeds the literal `???` written in place
of `reference_scaling_beta` when there is no positive factor to write. -/
structure ProcessedFile where
  deviceId : String
  citizenId : String
  originICAO : String
  destICAO : String
  flightNumber : String
  timeOffset : String
  r2 : String
  timestampsNote : String
  takeoff : Int
  landing : Int
  hasReference : Bool
  scalingField : Option ℚ
  rows : List ProcessedRow
deriving DecidableEq, Repr

/-- The data row written for index `i` (`none` when some array is too
short, where the Python loop would raise IndexError). -/
def rowAt (rec : MergedRecord) (i : Nat) : Option ProcessedRow := do
  let ts ← rec.time.get? i
  let c1 ← rec.cnt1mn.get? i
  let c5 ← rec.cnt5sc.get? i
  let la ← rec.lat.get? i
  let lo ← rec.lon.get? i
  let al ← rec.alt.get? i
  let sim ← match rec.cari with
    | none => pure none
    | some (tot, tmn) => do
      let t ← tot.get? i
      let n ← tmn.get? i
      -- the neutron column is written as cari_total[i] - total-neutron[i]
      pure (some (fmtExp4 t, fmtExp4 (t - n)))
  pure { ts := ts, c1 := c1, c5 := c5, lat := fmtFixed 5 la, lon := fmtFixed 5 lo,
         alt := fmtFixed 0 al, sim := sim }

/-- Function `write_newlog`: serialize a merged record into the processed-log
artifact.  With reference data the header carries `time_offset` and `R2`
verbatim and the scaling factor is always written with `{:.4e}`; without
reference data the source writes the literal `???` for
`reference_time_offset_s` and `reference_fit_r2`, and the scaling factor
only when positive, with `???` (= `none`) otherwise. -/
def writeNewlog (rec : MergedRecord) : Option ProcessedFile := do
  let rows ← (List.range rec.time.length).mapM (rowAt rec)
  pure { deviceId := rec.deviceId, citizenId := rec.citizenId,
         originICAO := rec.originICAO, destICAO := rec.destICAO,
         flightNumber := rec.flightNumber,
         timeOffset := if rec.cari.isSome then rec.timeOffset else "???",
         r2 := if rec.cari.isSome then rec.r2 else "???",
         timestampsNote := rec.timestampsNote,
         takeoff := rec.takeoff, landing := rec.landing,
         hasReference := rec.cari.isSome,
         scalingField :=
           if rec.cari.isSome then some (fmtExp4 rec.scalingFactor)
           else if 0 < rec.scalingFactor then some (fmtExp4 rec.scalingFactor)
           else none,
         rows := rows }

/-- Function `read_processed_log`: parse a processed-log artifact back into a
record.  A `???` scaling field fails `float()` and falls back to `0.0`;
with reference data the columns are read back as
`cari_total = row[6]` and `total-neutron = row[6] - row[7]`. -/
def readProcessedLog (f : ProcessedFile) : Option MergedRecord := do
  let cari ←
    if f.hasReference then do
      let sims ← f.rows.mapM (fun r => r.sim)
      pure (some (sims.map Prod.fst, sims.map (fun p => p.1 - p.2)))
    else pure none
  pure { deviceId := f.deviceId, citizenId := f.citizenId,
         originICAO := f.originICAO, destICAO := f.destICAO,
         flightNumber := f.flightNumber, timeOffset := f.timeOffset,
         r2 := f.r2, timestampsNote := f.timestampsNote,
         takeoff := f.takeoff, landing := f.landing,
         scalingFactor := match f.scalingField with | some q => q | none => 0,
         time := f.rows.map (fun r => r.ts),
         cnt1mn := f.rows.map (fun r => r.c1),
         cnt5sc := f.rows.map (fun r => r.c5),
         lat := f.rows.map (fun r => r.lat),
         lon := f.rows.map (fun r => r.lon),
         alt := f.rows.map (fun r => r.alt),
         cari := cari }

/-- Agreement of `y` with `x` in the first `d` significant (decimal)
digits: their difference is at most half a unit in the `d`-th
significant place of `x`. -/
def agreesSig (d : Nat) (y x : ℚ) : Prop :=
  |y - x| ≤ (1 / 2) * (10 : ℚ) ^ (qExp |x| - ((d : ℤ) - 1))

instance (d : Nat) (y x : ℚ) : Decidable (agreesSig d y x) :=
  decidable_of_iff (|y - x| ≤ (1 / 2) * (10 : ℚ) ^ (qExp |x| - ((d : ℤ) - 1))) Iff.rfl

/-! ## Helper lemmas -/

/-- Mapping `getD` over the index range of a list reproduces the list. -/
theorem map_getD_range {α : Type} (l : List α) (d : α) :
    (List.range l.length).map (fun i => l.getD i d) = l := by
  apply List.ext_getElem
  · simp
  · intro i h1 h2
    simp only [List.getElem_map, List.getElem_range]
    rw [List.getD_eq_getElem l d h2]

/-- Monadic map (`mapM`) into `Option` succeeds pointwise. -/
theorem mapM_option_of_forall {α β : Type} (l : List α) (f : α → Option β) (g : α → β)
    (h : ∀ a ∈ l, f a = some (g a)) : l.mapM f = some (l.map g) := by
  induction l with
  | nil => rfl
  | cons x xs ih =>
    rw [List.mapM_cons, h x (by simp), ih (fun a ha => h a (by simp [ha]))]
    rfl

/-- A `zipWith` as a map over the common index range. -/
theorem zipWith_eq_map_range {α β γ : Type} (f : α → β → γ) (a : List α) (b : List β)
    (da : α) (db : β) (n : Nat) (ha : a.length = n) (hb : b.length = n) :
    List.zipWith f a b = (List.range n).map (fun i => f (a.getD i da) (b.getD i db)) := by
  apply List.ext_getElem
  · simp [ha, hb]
  · intro i h1 h2
    have h1' : i < min a.length b.length := by simpa using h1
    have hia : i < a.length := lt_of_lt_of_le h1' (min_le_left _ _)
    have hib : i < b.length := lt_of_lt_of_le h1' (min_le_right _ _)
    simp only [List.getElem_zipWith, List.getElem_map, List.getElem_range]
    rw [List.getD_eq_getElem a da hia, List.getD_eq_getElem b db hib]

theorem sum_zipWith_mul_comm (c : List Int) (t : List ℚ) :
    (List.zipWith (fun (a : Int) (b : ℚ) => (a : ℚ) * b) c t).sum
      = (List.zipWith (fun (a : ℚ) (b : Int) => a * (b : ℚ)) t c).sum := by
  induction c generalizing t with
  | nil => cases t <;> simp
  | cons x xs ih =>
    cases t with
    | nil => simp
    | cons y ys =>
      simp only [List.zipWith_cons_cons, List.sum_cons]
      rw [ih ys, mul_comm]

/-! ## Claim C7: the persisted calibration factor vs the aligner's β -/

/-- C7, counterexample: at counts `[1, 2]` and total-neutron dose `[1, 1]`
the stored scaling factor is `3/5 = Σ(cnt·dose)/Σ(cnt²)`, while the
formula claimed for it — `align_time`'s `β = Σ(m·r)/Σ(r²)` with
measurement `m` = counts and reference `r` = dose — gives `3/2`; the two
differ, so the claim is false. -/
theorem coa_c7_counterexample :
    scalingFactorOf [1, 2] [1, 1] = 3 / 5 ∧
    betaHat (([1, 2] : List Int).map (fun (c : Int) => (c : ℚ))) [1, 1] = 3 / 2 ∧
    ¬ scalingFactorOf [1, 2] [1, 1]
        = betaHat (([1, 2] : List Int).map (fun (c : Int) => (c : ℚ))) [1, 1] := by
  refine ⟨by decide, by decide, by decide⟩

/-- C7, amended: the stored scaling factor is the zero-intercept slope
with the roles swapped: it equals `β = Σ(m·r)/Σ(r²)` with measurement
`m` = total-neutron dose and reference `r` = counts (i.e. it regresses
dose ≈ β·counts, a counts→dose factor, as its μSv/h-per-CPM unit in the
written header says), not dose as the regressor. -/
theorem coa_c7_amended (cnt1mn : List Int) (tmn : List ℚ) :
    scalingFactorOf cnt1mn tmn = betaHat tmn (cnt1mn.map (fun (c : Int) => (c : ℚ))) := by
  unfold scalingFactorOf betaHat
  rw [List.zipWith_map_right, List.map_map]
  rw [sum_zipWith_mul_comm cnt1mn tmn]
  rfl

/-! ## Claim C1: monotonicity of repaired timestamps -/

/-- C1, failing input: on the timestamp sequence `[0, 1, 3, 2003, 5]`
(median-derived `delta = 1.5`), the error-combination step accepts the
corrected delta `-1998 + 1998.5 = 0.5` (it passes the `valid` check),
but storing it into the `int64` delta array truncates it to `0`, so the
returned sequence `[0, 1, 3, 4, 4]` repeats its final timestamp and is
not strictly increasing. -/
theorem coa_c1_bug :
    fixTimes [0, 1, 3, 2003, 5] (-1) 1800 = .ok [0, 1, 3, 4, 4] ∧
    strictIncrB [0, 1, 3, 4, 4] = false := by
  refine ⟨by decide, by decide⟩

/-! ## Claim C2: the duplicate-timestamp repair scenario -/

/-- C2, counterexample: `fix_times` on offsets `[0, 60, 60, 180, 240]`
does NOT return `[0, 60, 120, 180, 240]`. -/
theorem coa_c2_counterexample :
    ¬ fixTimes [0, 60, 60, 180, 240] (-1) 1800 = .ok [0, 60, 120, 180, 240] := by
  decide

/-- C2, amended: the duplicate delta is replaced by `delta = 60`, and the
recorded `-60` error is never applied because the later 120 s gap is a
VALID delta (`0 < 120 ≤ 1800`) and only invalid deltas are corrected;
the tail therefore shifts by +60 s and the result is
`[0, 60, 120, 240, 300]`. -/
theorem coa_c2_amended :
    fixTimes [0, 60, 60, 180, 240] (-1) 1800 = .ok [0, 60, 120, 240, 300] := by
  decide

/-! ## Claim C5: the failure condition of `fix_times` -/

/-- C5, failing input: on offsets `[0, 60, 2060, 1060, 1060, 1120]` a
valid delta exists (60 s, twice), so by the claim the repair must
complete; but after the error-combination step empties the error list,
the duplicate-timestamp branch executes `errors[-1] -= delta` on the
empty list and raises an IndexError rather than completing. -/
theorem coa_c5_bug :
    fixTimes [0, 60, 2060, 1060, 1060, 1120] (-1) 1800 = .error .indexError ∧
    ((deltasOf [0, 60, 2060, 1060, 1060, 1120]).map (validDelta 1800)).any id = true := by
  refine ⟨by decide, by decide⟩

/-! ## Claim C9: the no-op fast path -/

/-- C9: on a timestamp sequence all of whose consecutive deltas are valid
(`0 < dt ≤ max_dt`), `fix_times` returns its input unchanged. -/
theorem coa_c9_fast_path (dataTime : List Int) (delta : ℚ) (maxDt : Int)
    (h : ((deltasOf dataTime).map (validDelta maxDt)).all id = true) :
    fixTimes dataTime delta maxDt = .ok dataTime := by
  unfold fixTimes
  rw [if_pos h]

/-- Witness for C9 at the concrete sequence `[0, 60, 120]`. -/
theorem coa_c9_fast_path_witness :
    fixTimes [0, 60, 120] (-1) 1800 = .ok [0, 60, 120] :=
  coa_c9_fast_path [0, 60, 120] (-1) 1800 (by decide)

/-! ## Claim C6: serialization round trip -/

/-- Helper for reading a list entry below its length as `some` of its
`getD` value. -/
theorem get?_eq_some_getD {α : Type} (l : List α) (i : Nat) (d : α) (h : i < l.length) :
    l.get? i = some (l.getD i d) := by
  rw [List.getD_eq_getElem l d h, List.get?_eq_getElem?]
  exact List.getElem?_eq_getElem h

/-- Mapping `f` over `getD` across the index range reproduces `l.map f`. -/
theorem map_comp_getD_range {α β : Type} (l : List α) (d : α) (f : α → β) (n : Nat)
    (h : l.length = n) :
    (List.range n).map (fun i => f (l.getD i d)) = l.map f := by
  subst h
  rw [show (fun i => f (l.getD i d)) = f ∘ (fun i => l.getD i d) from rfl,
    ← List.map_map, map_getD_range]

/-- The data-row value the writer produces at index `i` (when every
array is long enough). -/
def rowFn (rec : MergedRecord) (i : Nat) : ProcessedRow :=
  { ts := rec.time.getD i 0, c1 := rec.cnt1mn.getD i 0, c5 := rec.cnt5sc.getD i 0,
    lat := fmtFixed 5 (rec.lat.getD i 0), lon := fmtFixed 5 (rec.lon.getD i 0),
    alt := fmtFixed 0 (rec.alt.getD i 0),
    sim := match rec.cari with
      | none => none
      | some (tot, tmn) =>
        some (fmtExp4 (tot.getD i 0), fmtExp4 (tot.getD i 0 - tmn.getD i 0)) }

theorem rowAt_eq (rec : MergedRecord) (i : Nat) (hti : i < rec.time.length)
    (hb1 : i < rec.cnt1mn.length) (hb2 : i < rec.cnt5sc.length)
    (hb3 : i < rec.lat.length) (hb4 : i < rec.lon.length) (hb5 : i < rec.alt.length)
    (hb6 : ∀ tot tmn, rec.cari = some (tot, tmn) → i < tot.length ∧ i < tmn.length) :
    rowAt rec i = some (rowFn rec i) := by
  unfold rowAt rowFn
  rw [get?_eq_some_getD _ _ 0 hti, get?_eq_some_getD _ _ 0 hb1, get?_eq_some_getD _ _ 0 hb2,
    get?_eq_some_getD _ _ 0 hb3, get?_eq_some_getD _ _ 0 hb4, get?_eq_some_getD _ _ 0 hb5]
  cases hc : rec.cari with
  | none => simp
  | some p =>
    obtain ⟨tot, tmn⟩ := p
    obtain ⟨ht, hn⟩ := hb6 tot tmn hc
    simp [List.getElem?_eq_getElem ht, List.getElem?_eq_getElem hn]

/-- C6, amended (exact characterization of the round trip): writing a
merged record and re-reading it reproduces the device id, flight
metadata, takeoff/landing times, counts and timestamps exactly;
latitude/longitude rounded to 5 decimal places, altitude to 0 decimal
places; `cari_total` rounded to the `{:.4e}` format; the scaling factor
rounded to `{:.4e}` when reference data is present or it is positive
(and read back as 0 otherwise); the `time_offset` and `R2` strings
verbatim when reference data is present but overwritten with the
literal `???` when it is absent; and `total-neutron` comes back as the
DIFFERENCE of the two rounded columns,
`fmtExp4 total - fmtExp4 (total - tmn)` — which is not, in general,
`tmn` to 4 significant digits. -/
theorem coa_c6_amended (rec : MergedRecord)
    (h1 : rec.cnt1mn.length = rec.time.length)
    (h2 : rec.cnt5sc.length = rec.time.length)
    (h3 : rec.lat.length = rec.time.length)
    (h4 : rec.lon.length = rec.time.length)
    (h5 : rec.alt.length = rec.time.length)
    (h6 : rec.cari.elim True (fun p =>
      p.1.length = rec.time.length ∧ p.2.length = rec.time.length)) :
    (writeNewlog rec).bind readProcessedLog = some
      { rec with
        timeOffset := if rec.cari.isSome then rec.timeOffset else "???",
        r2 := if rec.cari.isSome then rec.r2 else "???",
        lat := rec.lat.map (fmtFixed 5),
        lon := rec.lon.map (fmtFixed 5),
        alt := rec.alt.map (fmtFixed 0),
        scalingFactor :=
          if rec.cari.isSome ∨ 0 < rec.scalingFactor then fmtExp4 rec.scalingFactor else 0,
        cari := rec.cari.map (fun p =>
          (p.1.map fmtExp4,
           List.zipWith (fun t n => fmtExp4 t - fmtExp4 (t - n)) p.1 p.2)) } := by
  have hrows : (List.range rec.time.length).mapM (rowAt rec)
      = some ((List.range rec.time.length).map (rowFn rec)) := by
    apply mapM_option_of_forall
    intro i hi
    have hi' : i < rec.time.length := List.mem_range.mp hi
    refine rowAt_eq rec i hi' (by omega) (by omega) (by omega) (by omega) (by omega) ?_
    intro tot tmn hc
    rw [hc] at h6
    have h7 : tot.length = rec.time.length ∧ tmn.length = rec.time.length := h6
    exact ⟨by omega, by omega⟩
  simp only [List.mapM] at hrows
  have hmapl : ∀ (l : List Int), l.length = rec.time.length →
      (List.range rec.time.length).map (fun i => l.getD i 0) = l := by
    intro l hl
    rw [← hl]
    exact map_getD_range l 0
  have hmapq : ∀ (f : ℚ → ℚ) (l : List ℚ), l.length = rec.time.length →
      (List.range rec.time.length).map (fun i => f (l.getD i 0)) = l.map f := by
    intro f l hl
    rw [← hl]
    exact map_comp_getD_range l 0 f l.length rfl
  have htime := hmapl rec.time rfl
  have hcnt1 := hmapl rec.cnt1mn h1
  have hcnt5 := hmapl rec.cnt5sc h2
  have hlat := hmapq (fmtFixed 5) rec.lat h3
  have hlon := hmapq (fmtFixed 5) rec.lon h4
  have halt := hmapq (fmtFixed 0) rec.alt h5
  simp only [List.getD_eq_getElem?_getD] at htime hcnt1 hcnt5 hlat hlon halt
  cases hc : rec.cari with
  | none =>
    by_cases hsf : 0 < rec.scalingFactor <;>
      simp [writeNewlog, hrows, readProcessedLog, hc, hsf, rowFn,
        List.map_map, Function.comp_def, htime, hcnt1, hcnt5, hlat, hlon, halt]
  | some p =>
    obtain ⟨tot, tmn⟩ := p
    rw [hc] at h6
    have h7 : tot.length = rec.time.length ∧ tmn.length = rec.time.length := h6
    have hsims : ((List.range rec.time.length).map (rowFn rec)).mapM
        (fun r => r.sim)
        = some (((List.range rec.time.length).map (rowFn rec)).map
            (fun r => r.sim.getD (0, 0))) := by
      apply mapM_option_of_forall
      intro r hr
      obtain ⟨i, _, rfl⟩ := List.mem_map.mp hr
      simp [rowFn, hc]
    simp only [List.mapM] at hsims
    have hfst := hmapq fmtExp4 tot h7.1
    have hsnd := (zipWith_eq_map_range (fun t n => fmtExp4 t - fmtExp4 (t - n)) tot tmn 0 0
      rec.time.length h7.1 h7.2).symm
    simp only [List.getD_eq_getElem?_getD] at hfst hsnd
    simp [writeNewlog, hrows, readProcessedLog, hc, hsims, rowFn,
      List.map_map, Function.comp_def, htime, hcnt1, hcnt5, hlat, hlon, halt, hfst, hsnd]

/-- A concrete record with reference data for the C6 witness. -/
def recRT : MergedRecord :=
  { deviceId := "Safecast-1", citizenId := "c7", originICAO := "LFPG",
    destICAO := "KJFK", flightNumber := "AF066", timeOffset := "30",
    r2 := "0.97", timestampsNote := "repaired",
    takeoff := 1700000000, landing := 1700030000, scalingFactor := 1/400,
    time := [1700000000, 1700000060], cnt1mn := [12, 34], cnt5sc := [1, 3],
    lat := [4912345/100000, -491234567/10000000], lon := [2/3, -180],
    alt := [100001/10, 0],
    cari := some ([5/2, 1/3], [100001/100000, 1/100000]) }

/-- Witness for C6 (amended) at a concrete two-row record. -/
theorem coa_c6_amended_witness :
    (writeNewlog recRT).bind readProcessedLog = some
      { recRT with
        timeOffset := if recRT.cari.isSome then recRT.timeOffset else "???",
        r2 := if recRT.cari.isSome then recRT.r2 else "???",
        lat := recRT.lat.map (fmtFixed 5),
        lon := recRT.lon.map (fmtFixed 5),
        alt := recRT.alt.map (fmtFixed 0),
        scalingFactor :=
          if recRT.cari.isSome ∨ 0 < recRT.scalingFactor then fmtExp4 recRT.scalingFactor else 0,
        cari := recRT.cari.map (fun p =>
          (p.1.map fmtExp4,
           List.zipWith (fun t n => fmtExp4 t - fmtExp4 (t - n)) p.1 p.2)) } :=
  coa_c6_amended recRT (by decide) (by decide) (by decide) (by decide) (by decide)
    (by exact ⟨rfl, rfl⟩)

/-- The cancellation record for the C6 counterexample: total dose
1.00001 μSv/h, total-neutron difference 0.00001 μSv/h. -/
def recCancel : MergedRecord :=
  { deviceId := "d", citizenId := "c", originICAO := "LFPG",
    destICAO := "KJFK", flightNumber := "AF1", timeOffset := "0",
    r2 := "0.99", timestampsNote := "original",
    takeoff := 0, landing := 0, scalingFactor := 0,
    time := [0], cnt1mn := [1], cnt5sc := [1],
    lat := [0], lon := [0], alt := [0],
    cari := some ([100001/100000], [1/100000]) }

/-- A finalized record without reference data, whose time-offset string
is numeric (the pipeline always sets one), for the metadata conjuncts
of the C6 counterexample. -/
def recNoRef : MergedRecord :=
  { deviceId := "d", citizenId := "c", originICAO := "LFPG",
    destICAO := "KJFK", flightNumber := "AF1", timeOffset := "30",
    r2 := "", timestampsNote := "original",
    takeoff := 0, landing := 0, scalingFactor := 0,
    time := [0], cnt1mn := [1], cnt5sc := [1],
    lat := [0], lon := [0], alt := [0],
    cari := none }

/-- C6, counterexample, two independent failures of the claimed round
trip.  First, the `total-neutron` field does not round-trip to 4
significant digits: with total = 1.00001 and total−neutron = 0.00001,
both written columns round to `1.0000e+00`, so re-reading returns
total-neutron = 0, which does not agree with 0.00001 in even one
significant digit.  Second, for a record without reference data the
`reference_time_offset_s` and `reference_fit_r2` header fields are
written as the literal `???`, so the time-offset and R² metadata
strings read back as `???`, not as the record's values. -/
theorem coa_c6_counterexample :
    recCancel.cari = some ([100001/100000], [1/100000]) ∧
    ((writeNewlog recCancel).bind readProcessedLog).map (fun r => r.cari)
      = some (some ([1], [0])) ∧
    ¬ agreesSig 4 0 (1/100000) ∧
    ((writeNewlog recNoRef).bind readProcessedLog).map (fun r => (r.timeOffset, r.r2))
      = some ("???", "???") ∧
    some ("???", "???") ≠ some (recNoRef.timeOffset, recNoRef.r2) := by
  refine ⟨by decide, by decide, by decide, by decide, by decide⟩

/-! ## Claim C8: longitude unwrap / rewrap -/

theorem ravelPoint_bounds (x : ℚ) : -180 ≤ ravelPoint x ∧ ravelPoint x < 180 := by
  have h1 : ((⌊(x + 180) / 360⌋ : ℤ) : ℚ) ≤ (x + 180) / 360 := Int.floor_le _
  have h2 : (x + 180) / 360 < ((⌊(x + 180) / 360⌋ : ℤ) : ℚ) + 1 := Int.lt_floor_add_one _
  have key : (360 : ℚ) * ((x + 180) / 360) = x + 180 := by field_simp
  have h1' := mul_le_mul_of_nonneg_left h1 (by norm_num : (0 : ℚ) ≤ 360)
  have h2' := mul_lt_mul_of_pos_left h2 (by norm_num : (0 : ℚ) < 360)
  rw [key] at h1' h2'
  unfold ravelPoint
  constructor <;> linarith

theorem ravelPoint_congr (x : ℚ) : ∃ k : ℤ, ravelPoint x = x + 360 * (k : ℚ) :=
  ⟨-⌊(x + 180) / 360⌋, by unfold ravelPoint; push_cast; ring⟩

theorem unravelStep_congr (prev x : ℚ) :
    ∃ k : ℤ, unravelStep prev x = x + 360 * (k : ℚ) := by
  refine ⟨((⌈(-180 - (unravelSub prev x - prev)) / 360⌉).toNat : ℤ)
    - ((⌈((x - prev) - 180) / 360⌉).toNat : ℤ), ?_⟩
  unfold unravelStep unravelSub
  push_cast
  ring

/-- The per-element relation of the amended unwrap/rewrap round trip:
same longitude modulo 360, landed in the half-open interval
`[-180, 180)`. -/
def lonResidueProp (y x : ℚ) : Prop :=
  (∃ k : ℤ, y = x + 360 * (k : ℚ)) ∧ -180 ≤ y ∧ y < 180

theorem c8_go (prev : ℚ) (xs : List ℚ) :
    List.Forall₂ lonResidueProp ((unravelGo prev xs).map ravelPoint) xs := by
  induction xs generalizing prev with
  | nil => simp [unravelGo]
  | cons y ys ih =>
    simp only [unravelGo, List.map_cons]
    refine List.Forall₂.cons ?_ (ih _)
    obtain ⟨k1, hk1⟩ := unravelStep_congr prev y
    obtain ⟨k2, hk2⟩ := ravelPoint_congr (unravelStep prev y)
    refine ⟨⟨k2 + k1, ?_⟩, (ravelPoint_bounds _).1, (ravelPoint_bounds _).2⟩
    rw [hk2, hk1]
    push_cast
    ring

/-- C8, amended: for every longitude sequence, `ravel_lon (unravel_lon x)`
agrees with `x` elementwise modulo 360 and lies in the HALF-OPEN
interval `[-180, 180)` — `(lon + 180) % 360 - 180` maps 180 to −180, so
the normalization interval is `[-180, 180)`, not `(-180, 180]`. -/
theorem coa_c8_amended (lon : List ℚ) :
    List.Forall₂ lonResidueProp (ravelLon (unravelLon lon)) lon := by
  cases lon with
  | nil => simp [ravelLon, unravelLon]
  | cons x xs =>
    simp only [unravelLon, ravelLon, List.map_cons]
    exact List.Forall₂.cons
      ⟨ravelPoint_congr x, (ravelPoint_bounds x).1, (ravelPoint_bounds x).2⟩
      (c8_go x xs)

/-- C8, counterexample: at the sequence `[180]` the round trip yields
`[-180]`, which is congruent modulo 360 but does NOT lie in the claimed
interval `(-180, 180]`. -/
theorem coa_c8_counterexample :
    ¬ List.Forall₂
        (fun y x => (∃ k : ℤ, y = x + 360 * (k : ℚ)) ∧ -180 < y ∧ y ≤ 180)
        (ravelLon (unravelLon [(180 : ℚ)])) [(180 : ℚ)] := by
  intro h
  have he : ravelLon (unravelLon [(180 : ℚ)]) = [(-180 : ℚ)] := by decide
  rw [he] at h
  cases h with
  | cons h1 _ => exact absurd h1.2.1 (by norm_num)

/-! ## Claims C3, C10, C4: the sliding-window searches -/

/-- Device timestamps for the aligner scenarios: 8 samples, 60 s apart. -/
def devTimeC3 : List Int := [0, 60, 120, 180, 240, 300, 360, 420]

/-- Device counts for the C3 scenario: over the sub-window of indices
1..7 the reference curve equals exactly twice the counts. -/
def cntC3 : List Int := [5, 1, 2, 3, 4, 3, 2, 1]

/-- Flight-track waypoint times: takeoff 0, landing 360 (duration 360 s). -/
def fltTimeC3 : List Int := [0, 60, 120, 180, 240, 300, 360]

/-- Reference total-neutron curve at the waypoints: exactly
`2 ×` the device counts of window 1..7. -/
def refC3 : List ℚ := [2, 4, 6, 8, 6, 4, 2]

/-- C3, counterexample: on a stream whose reference curve equals exactly
2× the device counts over the qualifying sub-window 1..7 (second
conjunct), `align_time` returns `(2, 7)` with R² = 1 — the start index
is the window's start PLUS ONE, because `window_start += 1` runs before
the best-window record — and the fitted zero-intercept slope over that
window is `β = 1/2` (counts ≈ β·reference), not 2.  So the claimed
return of exactly `(1, 7)` with `β = 2` is false. -/
theorem coa_c3_counterexample :
    alignTime devTimeC3 cntC3 0 360 fltTimeC3 refC3 16 = .ok (2, 7, 1) ∧
    refC3 = ((cntC3.drop 1).map (fun (c : Int) => (c : ℚ))).map (fun v => 2 * v) ∧
    betaHat ((cntC3.drop 1).map (fun (c : Int) => (c : ℚ))) refC3 = 1 / 2 ∧
    ¬ (alignTime devTimeC3 cntC3 0 360 fltTimeC3 refC3 16 = .ok (1, 7, 1) ∧
        betaHat ((cntC3.drop 1).map (fun (c : Int) => (c : ℚ))) refC3 = 2) := by
  refine ⟨by decide, by decide, by decide, ?_⟩
  intro hc
  exact absurd hc.1 (by decide)

/-- C3, amended: on the perfect-2× scenario stream, `align_time`
identifies the perfect window 1..7 with R² = 1.0 but returns its start
index plus one (`(2, 7)`), and the zero-intercept slope of the fit is
`β = 1/2` in the direction the code fits (measurement ≈ β·reference). -/
theorem coa_c3_amended :
    alignTime devTimeC3 cntC3 0 360 fltTimeC3 refC3 16 = .ok (2, 7, 1) ∧
    betaHat ((cntC3.drop 1).map (fun (c : Int) => (c : ℚ))) refC3 = 1 / 2 := by
  refine ⟨by decide, by decide⟩

/-- Counts for the C10 aligner tie: both qualifying windows (0..6 and
1..7) are exactly proportional to the reference (slopes 1 and 2), so
both have R² = 1. -/
def cntC10 : List Int := [1, 2, 4, 8, 16, 32, 64, 128]

/-- Reference curve for the C10 aligner tie. -/
def refC10 : List ℚ := [1, 2, 4, 8, 16, 32, 64]

/-- Left fold with the non-strict update `this_sum >= max_sum` of
`estimate_takeoff`: each candidate is a window with its sum, the
accumulator holds the current best window and maximum. -/
def foldGE (acc : (Nat × Nat) × Int) : List ((Nat × Nat) × Int) → (Nat × Nat) × Int
  | [] => acc
  | c :: cs => foldGE (if c.2 ≥ acc.2 then c else acc) cs

/-- Left fold with the strict update `R2 > max_R2` of `align_time`. -/
def foldGT (acc : (Nat × Nat) × ℚ) : List ((Nat × Nat) × ℚ) → (Nat × Nat) × ℚ
  | [] => acc
  | c :: cs => foldGT (if c.2 > acc.2 then c else acc) cs

/-- Instrumented variant of `estLoop` that runs the identical control
flow but returns, instead of the best window, the list of candidate
windows (window, clipped-cumulative sum) that reach the
`this_sum >= max_sum` comparison, in scan order. -/
def estLoopT (time : List Int) (cumsum : List Int) (size : Nat) (duration : Int) :
    EstState → Nat → Except RunErr (List ((Nat × Nat) × Int))
  | _, 0 => .error .fuelOut
  | st, fuel + 1 =>
    if (st.wStop : Int) = (size : Int) - 1 then .ok []
    else
      match estInner time duration st.wStart
          (List.range' (st.wStop + 1) (size - (st.wStop + 1))) st.wStop st.dt with
      | .error e => .error e
      | .ok (stop1, dtOpt) =>
        match dtOpt with
        | none => .error .nameError
        | some d =>
          if d ≤ 0 then
            estLoopT time cumsum size duration
              { st with wStart := st.wStart + 1, wStop := st.wStart + 2, dt := some d } fuel
          else
            match cumsum[stop1]?, cumsum[st.wStart]? with
            | some cs, some cb =>
              let thisSum := cs - cb
              match (if thisSum ≥ st.maxSum then
                  estLoopT time cumsum size duration
                    { wStart := st.wStart + 1, wStop := stop1, dt := some d,
                      maxSum := thisSum, tIdx := st.wStart, lIdx := stop1 } fuel
                else
                  estLoopT time cumsum size duration
                    { st with wStart := st.wStart + 1, wStop := stop1, dt := some d } fuel) with
              | .error e => .error e
              | .ok cands => .ok (((st.wStart, stop1), thisSum) :: cands)
            | _, _ => .error .indexError

/-- Candidate-window trace of `estimate_takeoff`. -/
def estimateTakeoffT (time : List Int) (cnt5sc : List Int) (duration : Int)
    (maxDiff : Int) (fuel : Nat) : Except RunErr (List ((Nat × Nat) × Int)) :=
  let size := cnt5sc.length
  let cumsum := cumsumFrom 0 (rebuildCnt maxDiff cnt5sc)
  estLoopT time cumsum size duration
    { wStart := 0, wStop := 0, dt := none, maxSum := 0, tIdx := 0, lIdx := size - 1 } fuel

/-- A non-strict fold never moves off an accumulator that strictly
dominates the remaining candidates. -/
theorem foldGE_no_update (c : (Nat × Nat) × Int) :
    ∀ l, (∀ d ∈ l, d.2 < c.2) → foldGE c l = c := by
  intro l
  induction l with
  | nil => intro _; rfl
  | cons d ds ih =>
    intro h
    simp only [foldGE]
    rw [if_neg (by exact fun hge => absurd (h d (by simp)) (by omega))]
    exact ih (fun x hx => h x (by simp [hx]))

/-- With the NON-STRICT update, the fold returns the LAST candidate
attaining the maximum: `c` wins whenever it dominates the initial
maximum and everything before it non-strictly, and everything after it
strictly. -/
theorem foldGE_last_argmax (l₁ : List ((Nat × Nat) × Int)) :
    ∀ (b c : (Nat × Nat) × Int) (l₂ : List ((Nat × Nat) × Int)),
    b.2 ≤ c.2 → (∀ d ∈ l₁, d.2 ≤ c.2) → (∀ d ∈ l₂, d.2 < c.2) →
    foldGE b (l₁ ++ c :: l₂) = c := by
  induction l₁ with
  | nil =>
    intro b c l₂ hb _ h2
    simp only [List.nil_append, foldGE]
    rw [if_pos hb]
    exact foldGE_no_update c l₂ h2
  | cons a l₁ ih =>
    intro b c l₂ hb h1 h2
    simp only [List.cons_append, foldGE]
    by_cases ha : a.2 ≥ b.2
    · rw [if_pos ha]
      exact ih a c l₂ (h1 a (by simp)) (fun d hd => h1 d (by simp [hd])) h2
    · rw [if_neg ha]
      exact ih b c l₂ hb (fun d hd => h1 d (by simp [hd])) h2

/-- A strict fold never moves off an accumulator at least as good as the
remaining candidates. -/
theorem foldGT_no_update (c : (Nat × Nat) × ℚ) :
    ∀ l, (∀ d ∈ l, d.2 ≤ c.2) → foldGT c l = c := by
  intro l
  induction l with
  | nil => intro _; rfl
  | cons d ds ih =>
    intro h
    simp only [foldGT]
    rw [if_neg (fun hgt => absurd (h d (by simp)) (not_le.mpr hgt))]
    exact ih (fun x hx => h x (by simp [hx]))

/-- With the STRICT update, the fold returns the FIRST candidate
attaining the maximum: `c` wins whenever it strictly dominates the
initial maximum and everything before it, and is not exceeded after. -/
theorem foldGT_first_argmax (l₁ : List ((Nat × Nat) × ℚ)) :
    ∀ (b c : (Nat × Nat) × ℚ) (l₂ : List ((Nat × Nat) × ℚ)),
    b.2 < c.2 → (∀ d ∈ l₁, d.2 < c.2) → (∀ d ∈ l₂, d.2 ≤ c.2) →
    foldGT b (l₁ ++ c :: l₂) = c := by
  induction l₁ with
  | nil =>
    intro b c l₂ hb _ h2
    simp only [List.nil_append, foldGT]
    rw [if_pos hb]
    exact foldGT_no_update c l₂ h2
  | cons a l₁ ih =>
    intro b c l₂ hb h1 h2
    simp only [List.cons_append, foldGT]
    by_cases ha : a.2 > b.2
    · rw [if_pos ha]
      exact ih a c l₂ (h1 a (by simp)) (fun d hd => h1 d (by simp [hd])) h2
    · rw [if_neg ha]
      exact ih b c l₂ hb (fun d hd => h1 d (by simp [hd])) h2

/-- The best window returned by `estimate_takeoff`'s loop is exactly the
non-strict fold of the update rule over the candidate trace. -/
theorem estLoop_fold (time cumsum : List Int) (size : Nat) (duration : Int) :
    ∀ (fuel : Nat) (st : EstState) (res : Nat × Nat),
    estLoop time cumsum size duration st fuel = .ok res →
    ∃ cands, estLoopT time cumsum size duration st fuel = .ok cands ∧
      res = (foldGE ((st.tIdx, st.lIdx), st.maxSum) cands).1 := by
  intro fuel
  induction fuel with
  | zero => intro st res h; exact absurd h (by simp [estLoop])
  | succ n ih =>
    intro st res h
    rw [estLoop] at h
    rw [estLoopT]
    by_cases hexit : ((st.wStop : Nat) : Int) = ((size : Nat) : Int) - 1
    · rw [if_pos hexit] at h ⊢
      refine ⟨[], rfl, ?_⟩
      injection h with h'
      rw [← h']
      rfl
    · rw [if_neg hexit] at h ⊢
      cases hinner : estInner time duration st.wStart
          (List.range' (st.wStop + 1) (size - (st.wStop + 1))) st.wStop st.dt with
      | error e => rw [hinner] at h; exact absurd h (by simp)
      | ok p =>
        obtain ⟨stop1, dtOpt⟩ := p
        rw [hinner] at h
        cases dtOpt with
        | none => simp at h
        | some d =>
          by_cases hd : d ≤ 0
          · simp only [if_pos hd] at h ⊢
            exact ih _ res h
          · simp only [if_neg hd] at h ⊢
            cases hget1 : cumsum[stop1]? with
            | none => simp [hget1] at h
            | some csv =>
              cases hget2 : cumsum[st.wStart]? with
              | none => simp [hget1, hget2] at h
              | some cbv =>
                rw [hget1, hget2] at h
                by_cases hsum : csv - cbv ≥ st.maxSum
                · simp only [if_pos hsum] at h ⊢
                  obtain ⟨cands, hc, hres⟩ := ih _ res h
                  refine ⟨((st.wStart, stop1), csv - cbv) :: cands, ?_, ?_⟩
                  · rw [hc]
                  · simp only [foldGE]
                    rw [if_pos hsum]
                    exact hres
                · simp only [if_neg hsum] at h ⊢
                  obtain ⟨cands, hc, hres⟩ := ih _ res h
                  refine ⟨((st.wStart, stop1), csv - cbv) :: cands, ?_, ?_⟩
                  · rw [hc]
                  · simp only [foldGE]
                    rw [if_neg hsum]
                    exact hres

/-- Folding is compatible with list concatenation. -/
theorem foldGT_append (l1 l2 : List ((Nat × Nat) × ℚ)) :
    ∀ acc, foldGT acc (l1 ++ l2) = foldGT (foldGT acc l1) l2 := by
  induction l1 with
  | nil => intro acc; rfl
  | cons c cs ih =>
    intro acc
    simp only [List.cons_append, foldGT]
    exact ih _

/-- One `alignStep` moves the best-fit fields of the state exactly as
the strict fold over the (zero or one) candidates it emits. -/
theorem alignStep_best (time : List Int) (cnt : List ℚ) (tfs : List Int)
    (refT refV : List ℚ) (duration : Int) (st : AlignState) (eN : Nat)
    (st1 : AlignState) (copt : Option ((Nat × Nat) × ℚ))
    (h : alignStep time cnt tfs refT refV duration st eN = .ok (st1, copt)) :
    ((st1.tIdx, st1.lIdx), st1.maxR2)
      = foldGT ((st.tIdx, st.lIdx), st.maxR2) copt.toList := by
  unfold alignStep at h
  cases hg1 : time[eN]? with
  | none => simp [hg1] at h
  | some te =>
    cases hg2 : time[st.wStart]? with
    | none => simp [hg1, hg2] at h
    | some ts =>
      rw [hg1, hg2] at h
      by_cases hskip : (((te - ts : Int) : ℚ) < (1 / 2) * (duration : ℚ)) ∨
          ((eN : Int) - (st.wStart : Int) < 5)
      · simp only [if_pos hskip] at h
        injection h with h2
        injection h2 with h3 h4
        subst h3
        subst h4
        rfl
      · simp only [if_neg hskip] at h
        by_cases hs0 : sumSq (alignWindow cnt tfs refT refV st.wStart eN).2 = 0
        · simp only [if_pos hs0] at h
          injection h with h2
          injection h2 with h3 h4
          subst h3
          subst h4
          rfl
        · simp only [if_neg hs0] at h
          by_cases hb : betaHat (alignWindow cnt tfs refT refV st.wStart eN).1
              (alignWindow cnt tfs refT refV st.wStart eN).2 < 0
          · simp only [if_pos hb] at h
            injection h with h2
            injection h2 with h3 h4
            subst h3
            subst h4
            rfl
          · simp only [if_neg hb] at h
            by_cases ht : tssOf (alignWindow cnt tfs refT refV st.wStart eN).1 = 0
            · simp only [if_pos ht] at h
              injection h with h2
              injection h2 with h3 h4
              subst h3
              subst h4
              rfl
            · simp only [if_neg ht] at h
              by_cases hr2 : r2Of (alignWindow cnt tfs refT refV st.wStart eN).1
                  (alignWindow cnt tfs refT refV st.wStart eN).2 > st.maxR2
              · simp only [if_pos hr2] at h
                injection h with h2
                injection h2 with h3 h4
                subst h3
                subst h4
                simp only [Option.toList_some, foldGT]
                rw [if_pos hr2]
              · simp only [if_neg hr2] at h
                injection h with h2
                injection h2 with h3 h4
                subst h3
                subst h4
                simp only [Option.toList_some, foldGT]
                rw [if_neg hr2]

/-- The best fit returned by `align_time`'s loop is exactly the strict
fold of the update rule over the candidate trace. -/
theorem alignLoop_fold (time : List Int) (cnt : List ℚ) (tfs : List Int)
    (refT refV : List ℚ) (size : Nat) (duration : Int) :
    ∀ (fuel : Nat) (st : AlignState) (res : Nat × Nat × ℚ),
    alignLoop time cnt tfs refT refV size duration st fuel = .ok res →
    ∃ cands, alignLoopT time cnt tfs refT refV size duration st fuel = .ok cands ∧
      res = ((foldGT ((st.tIdx, st.lIdx), st.maxR2) cands).1.1,
             (foldGT ((st.tIdx, st.lIdx), st.maxR2) cands).1.2,
             (foldGT ((st.tIdx, st.lIdx), st.maxR2) cands).2) := by
  intro fuel
  induction fuel with
  | zero => intro st res h; exact absurd h (by simp [alignLoop])
  | succ n ih =>
    intro st res h
    rw [alignLoop] at h
    rw [alignLoopT]
    by_cases hexit : ((st.wEnd : Nat) : Int) = ((size : Nat) : Int) - 1
    · rw [if_pos hexit] at h ⊢
      refine ⟨[], rfl, ?_⟩
      injection h with h'
      rw [← h']
      rfl
    · rw [if_neg hexit] at h ⊢
      cases hinner : alignInner time duration st.wStart
          (List.range' (st.wEnd + 1) (size - (st.wEnd + 1))) with
      | error e => rw [hinner] at h; exact absurd h (by simp)
      | ok res0 =>
        rw [hinner] at h
        cases res0 with
        | none =>
          by_cases hsz : ((size : Nat) : Int) - 1 < 0
          · simp only [if_pos hsz] at h
            exact Except.noConfusion h
          · simp only [if_neg hsz] at h ⊢
            cases hstep : alignStep time cnt tfs refT refV duration st
                (((size : Nat) : Int) - 1).toNat with
            | error e => rw [hstep] at h; simp at h
            | ok p =>
              obtain ⟨st1, copt⟩ := p
              rw [hstep] at h
              obtain ⟨cands1, hc, hres⟩ := ih st1 res h
              refine ⟨copt.toList ++ cands1, ?_, ?_⟩
              · simp only [hc]
              · rw [hres, foldGT_append, ← alignStep_best time cnt tfs refT refV
                  duration st _ st1 copt hstep]
        | some x =>
          have hxnn : ¬ (((x : Nat) : Int) < 0) := by omega
          simp only [if_neg hxnn, Int.toNat_natCast] at h ⊢
          cases hstep : alignStep time cnt tfs refT refV duration st x with
          | error e => rw [hstep] at h; simp at h
          | ok p =>
            obtain ⟨st1, copt⟩ := p
            rw [hstep] at h
            obtain ⟨cands1, hc, hres⟩ := ih st1 res h
            refine ⟨copt.toList ++ cands1, ?_, ?_⟩
            · simp only [hc]
            · rw [hres, foldGT_append, ← alignStep_best time cnt tfs refT refV
                duration st _ st1 copt hstep]

/-- C10: tie-breaking of the two sliding-window searches.  First
conjunct (`estimate_takeoff`): whenever the search returns, its result
is the window of the candidate that weakly dominates (`this_sum >=
max_sum`, and `>=` the zero initial maximum) every candidate scanned
BEFORE it and strictly dominates every candidate scanned AFTER it — on
a tie of the maximal sum this is the LAST tied window in scan order.
Second conjunct (`align_time`): the returned window is the candidate
that strictly dominates (`R2 > max_R2`, and `>` the zero initial
maximum) every candidate scanned before it and weakly dominates every
candidate scanned after it — on a tie of the maximal R² this is the
FIRST tied window, the opposite rule. -/
theorem coa_c10_tie_break :
    (∀ (time cnt5sc : List Int) (duration maxDiff : Int) (fuel : Nat)
        (res : Nat × Nat) (l₁ : List ((Nat × Nat) × Int)) (c : (Nat × Nat) × Int)
        (l₂ : List ((Nat × Nat) × Int)),
      estimateTakeoff time cnt5sc duration maxDiff fuel = .ok res →
      estimateTakeoffT time cnt5sc duration maxDiff fuel = .ok (l₁ ++ c :: l₂) →
      (0 : Int) ≤ c.2 → (∀ d ∈ l₁, d.2 ≤ c.2) → (∀ d ∈ l₂, d.2 < c.2) →
      res = c.1) ∧
    (∀ (deviceTime cnt1mn : List Int) (takeoff landing : Int)
        (flightTime : List Int) (refTMN : List ℚ) (fuel : Nat)
        (res : Nat × Nat × ℚ) (l₁ : List ((Nat × Nat) × ℚ)) (c : (Nat × Nat) × ℚ)
        (l₂ : List ((Nat × Nat) × ℚ)),
      alignTime deviceTime cnt1mn takeoff landing flightTime refTMN fuel = .ok res →
      alignTimeT deviceTime cnt1mn takeoff landing flightTime refTMN fuel
        = .ok (l₁ ++ c :: l₂) →
      (0 : ℚ) < c.2 → (∀ d ∈ l₁, d.2 < c.2) → (∀ d ∈ l₂, d.2 ≤ c.2) →
      res = (c.1.1, c.1.2, c.2)) := by
  constructor
  · intro time cnt5sc duration maxDiff fuel res l₁ c l₂ hres hT h0 h1 h2
    simp only [estimateTakeoff] at hres
    simp only [estimateTakeoffT] at hT
    obtain ⟨cands, hc, hfold⟩ := estLoop_fold _ _ _ _ fuel _ res hres
    rw [hc] at hT
    have hcands := Except.ok.inj hT
    subst hcands
    rw [hfold]
    exact congrArg Prod.fst
      (foldGE_last_argmax l₁ ((0, cnt5sc.length - 1), (0 : Int)) c l₂ h0 h1 h2)
  · intro deviceTime cnt1mn takeoff landing flightTime refTMN fuel res l₁ c l₂ hres hT h0 h1 h2
    simp only [alignTime] at hres
    simp only [alignTimeT] at hT
    obtain ⟨cands, hc, hfold⟩ := alignLoop_fold _ _ _ _ _ _ _ fuel _ res hres
    rw [hc] at hT
    have hcands := Except.ok.inj hT
    subst hcands
    rw [hfold]
    exact congrArg (fun p => (p.1.1, p.1.2, p.2))
      (foldGT_first_argmax l₁ ((0, deviceTime.length - 1), (0 : ℚ)) c l₂ h0 h1 h2)

/-- Witness for C10 at the concrete tie inputs: `estimate_takeoff` on six
equal counts has three tied candidates `(0,3), (1,4), (2,5)` of sum 3
and returns the last, `(2, 5)`; `align_time` on counts proportional to
the reference over both windows 0..6 and 1..7 has two tied candidates
of R² = 1 and returns the first, `(1, 6, 1)`. -/
theorem coa_c10_tie_break_witness :
    estimateTakeoff [0, 60, 120, 180, 240, 300] [1, 1, 1, 1, 1, 1] 240 100 50 = .ok (2, 5) ∧
    estimateTakeoffT [0, 60, 120, 180, 240, 300] [1, 1, 1, 1, 1, 1] 240 100 50
      = .ok ([((0, 3), 3), ((1, 4), 3)] ++ ((2, 5), 3) :: []) ∧
    ((2 : Nat), (5 : Nat)) = (((2 : Nat), (5 : Nat)), (3 : Int)).1 ∧
    alignTime devTimeC3 cntC10 0 360 fltTimeC3 refC10 16 = .ok (1, 6, 1) ∧
    alignTimeT devTimeC3 cntC10 0 360 fltTimeC3 refC10 16
      = .ok ([] ++ ((1, 6), (1 : ℚ)) :: [((2, 7), 1)]) ∧
    ((1 : Nat), (6 : Nat), (1 : ℚ)) = ((((1 : Nat), (6 : Nat)), (1 : ℚ)).1.1,
      (((1 : Nat), (6 : Nat)), (1 : ℚ)).1.2, (((1 : Nat), (6 : Nat)), (1 : ℚ)).2) :=
  ⟨by decide, by decide,
   coa_c10_tie_break.1 [0, 60, 120, 180, 240, 300] [1, 1, 1, 1, 1, 1] 240 100 50 (2, 5)
     [((0, 3), 3), ((1, 4), 3)] ((2, 5), 3) [] (by decide) (by decide) (by decide)
     (by decide) (by decide),
   by decide, by decide,
   coa_c10_tie_break.2 devTimeC3 cntC10 0 360 fltTimeC3 refC10 16 (1, 6, 1)
     [] ((1, 6), 1) [((2, 7), 1)] (by decide) (by decide) (by decide)
     (by decide) (by decide)⟩

/-- The divergent tail of `estimate_takeoff` on the C4 failing input:
once the window start has run past the end of the data with a stale
non-positive `dt`, every iteration takes the corrupted-timestamp skip
branch, the stop pointer stays at start+1 and never equals `size - 1`,
and the loop never exits. -/
theorem estLoop_c4_diverge : ∀ (k s : Nat), 4 ≤ s → ∀ (d : Int), d ≤ 0 →
    ∀ (ms : Int) (t l : Nat),
    estLoop [0, 60, 120, 10000] (cumsumFrom 0 (rebuildCnt 100 [1, 1, 1, 1])) 4 240
      { wStart := s, wStop := s + 1, dt := some d, maxSum := ms, tIdx := t, lIdx := l } k
      = .error .fuelOut := by
  intro k
  induction k with
  | zero => intro s _ d _ ms t l; rfl
  | succ k ih =>
    intro s hs d hd ms t l
    have hcond : ¬ (((s + 1 : Nat) : Int) = ((4 : Nat) : Int) - 1) := by push_cast; omega
    have hrange : (4 : Nat) - (s + 1 + 1) = 0 := by omega
    simp only [estLoop, hrange, List.range']
    rw [if_neg hcond]
    simp only [estInner]
    rw [if_pos hd]
    exact ih (s + 1) (by omega) d hd ms t l

/-- C4, failing inputs.  First conjunct: `estimate_takeoff` never
terminates on 4 samples at offsets `[0, 60, 120, 10000]` with uniform
counts and flight duration 240 s (the final 9880 s gap exceeds the
duration, the final window degenerates to `dt = 0`, and the skip branch
then advances the start pointer forever on a stale `dt`), so no window
at all is returned.  Second conjunct: `align_time` on a 2-sample stream
raises an IndexError (the skip branch drives `window_start` to 2 and the
loop then subscripts `time[2]`). -/
theorem coa_c4_bug :
    (∀ fuel, estimateTakeoff [0, 60, 120, 10000] [1, 1, 1, 1] 240 100 fuel
        = .error .fuelOut) ∧
    alignTime [0, 60] [1, 1] 0 240 [0, 240] [1, 1] 10 = .error .indexError := by
  constructor
  · intro fuel
    match fuel with
    | 0 => rfl
    | 1 => rfl
    | 2 => rfl
    | 3 => rfl
    | 4 => rfl
    | (n + 5) =>
      have h : estimateTakeoff [0, 60, 120, 10000] [1, 1, 1, 1] 240 100 (n + 5) =
          estLoop [0, 60, 120, 10000] (cumsumFrom 0 (rebuildCnt 100 [1, 1, 1, 1])) 4 240
            { wStart := 4, wStop := 5, dt := some 0, maxSum := 2, tIdx := 0, lIdx := 2 }
            (n + 1) := rfl
      rw [h]
      exact estLoop_c4_diverge (n + 1) 4 (by omega) 0 (by omega) 2 0 2
  · decide

end COA
